import Mathlib

/-!
# nanolist: list authorisation, message transformation and VERP delivery

A shallow embedding of `src/list/list.go`, `src/list/message.go` and the
option handling of `src/list/commands.go`.

Conventions of the embedding:

* a Go `string` is a Lean `String`; the only bytes the code inspects are the
  ASCII characters `'@'` and `'='`, which never occur inside a multi-byte
  UTF-8 sequence, so working on characters agrees with Go working on bytes;
* a Go `error` is the text of its message, `nil` is `none`;
* library functions and injected capabilities (`IsSubscribed`,
  `mail.ParseAddressList`, `mail.ParseAddress`, `mail.ReadMessage`, the
  transport behind `Message.Send`) are parameters of the definitions;
* effects are explicit: a stateful callee takes and returns the state.
-/

namespace Nanolist

/-- A Go `error` value, represented by its message. -/
abbrev GoError := String

/-! ## `list.go` -/

/-- The `List` struct of `list.go` (named `MailList` here, `List` being taken).
`Subscribe`, `Unsubscribe` and `Subscribers` act on the store `σ` of the
persistence layer; `IsSubscribed` is the lookup `CanPost` consults. -/
structure MailList (σ : Type) where
  ID : String
  Name : String
  Description : String
  Address : String
  Hidden : Bool
  Locked : Bool
  SubscribersOnly : Bool
  Posters : List String
  Bcc : List String
  Subscribe : String → σ → Option GoError × σ
  Unsubscribe : String → σ → Option GoError × σ
  Subscribers : σ → Except GoError (List String)
  IsSubscribed : String → Bool × Option GoError

/-- The loop `for _, poster := range list.Posters { if from == poster { return true } }`
followed by `return false`. -/
def CanPost.loop (frm : String) : List String → Bool
  | [] => false
  | poster :: rest => if frm == poster then true else CanPost.loop frm rest

/-- Embeds `func (list *List) CanPost(from string) bool`. -/
def MailList.CanPost {σ : Type} (list : MailList σ) (frm : String) : Bool :=
  let denied : Bool :=
    if list.SubscribersOnly then
      let r := list.IsSubscribed frm
      -- `if err != nil || !ok { return false }`
      r.2 != none || !r.1
    else false
  if denied then false
  else if list.Posters.length > 0 then CanPost.loop frm list.Posters
  else true

/-! ## String helpers of the Go standard library used by `message.go` -/

/-- Cut a character sequence at the first occurrence of `sep`. -/
def cutFirst (sep : Char) : List Char → Option (List Char × List Char)
  | [] => none
  | c :: cs =>
    if c = sep then some ([], cs)
    else match cutFirst sep cs with
      | none => none
      | some (a, b) => some (c :: a, b)

/-- Embeds `strings.SplitN(s, sep, 2)` for a one-character separator: the whole
string when `sep` does not occur, otherwise the text before and after the
first occurrence. -/
def SplitN2 (s : String) (sep : Char) : List String :=
  match cutFirst sep s.data with
  | none => [s]
  | some (a, b) => [String.mk a, String.mk b]

/-- Replace the first `n` occurrences of the character `old` by `new`. -/
def replaceN (old new : Char) : Nat → List Char → List Char
  | 0, cs => cs
  | _, [] => []
  | n + 1, c :: cs =>
    if c = old then new :: replaceN old new n cs else c :: replaceN old new (n + 1) cs

/-- Embeds `strings.Replace(s, old, new, n)` for one-character `old` and `new` and `n ≥ 0`. -/
def Replace (s : String) (old new : Char) (n : Nat) : String :=
  String.mk (replaceN old new n s.data)

/-! ## `message.go`: delivery -/

/-- The envelope built in the loop of `SendVERP`:
`fmt.Sprintf("%s+%s@%s", parts[0], strings.Replace(recipient, "@", "=", 1), parts[1])`. -/
def verpEnvelope (parts : List String) (recipient : String) : String :=
  parts.getD 0 "" ++ "+" ++ Replace recipient '@' '=' 1 ++ "@" ++ parts.getD 1 ""

/-- The `for _, recipient := range recipients` loop of `SendVERP`; `errors` is the
slice accumulated so far and `s` the state the deliveries act on. -/
def SendVERP.loop {σ : Type} (Send : String → List String → σ → Option GoError × σ)
    (parts : List String) : List String → List GoError → σ → List GoError × σ
  | [], errors, s => (errors, s)
  | recipient :: rest, errors, s =>
    let envelope := verpEnvelope parts recipient
    let r := Send envelope [recipient] s
    match r.1 with
    | some err => SendVERP.loop Send parts rest (errors ++ [err]) r.2
    | none => SendVERP.loop Send parts rest errors r.2

/-- Embeds `func (msg *Message) SendVERP(envelopeSender string, recipients []string, ...) []error`.
`Send` is `msg.Send` with the SMTP parameters and `debug` fixed. -/
def SendVERP {σ : Type} (Send : String → List String → σ → Option GoError × σ)
    (envelopeSender : String) (recipients : List String) (s : σ) : List GoError × σ :=
  let parts := SplitN2 envelopeSender '@'
  if parts.length < 2 then
    (["Invalid envelope sender " ++ envelopeSender], s)
  else
    SendVERP.loop Send parts recipients [] s

/-- One delivery attempt: the envelope address and the recipient list handed to
`Message.Send`. -/
abbrev Attempt := String × List String

/-- A delivery whose outcome is a function of its arguments, instrumented to
record every attempt made, in order. -/
def recording (deliver : String → List String → Option GoError)
    (envelope : String) (rcpts : List String) (log : List Attempt) :
    Option GoError × List Attempt :=
  (deliver envelope rcpts, log ++ [(envelope, rcpts)])

/-- The specification's reading of the recipient part of a VERP envelope: every
`'@'` of the recipient replaced by `'='`. -/
def replaceEvery (r : String) : String :=
  String.mk (r.data.map fun c => if c = '@' then '=' else c)

/-! ## `message.go`: the message record and its transformations -/

/-- The `Message` struct of `message.go`. -/
structure Message where
  Subject : String
  From : String
  To : String
  Cc : String
  Bcc : String
  Date : String
  ID : String
  InReplyTo : String
  ContentType : String
  XList : String
  ListUnsubscribe : String
  Body : String
  deriving DecidableEq, Repr

/-- The zero value `&Message{}`. -/
def Message.zero : Message :=
  { Subject := "", From := "", To := "", Cc := "", Bcc := "", Date := "", ID := "",
    InReplyTo := "", ContentType := "", XList := "", ListUnsubscribe := "", Body := "" }

/-- The `mail.Address` struct of Go's `net/mail`. -/
structure MailAddress where
  Name : String
  Address : String
  deriving DecidableEq, Repr

/-- What `FromReader` uses of the `*mail.Message` returned by `mail.ReadMessage`:
`Header.Get` and the outcome of `ioutil.ReadAll` on `Body`. -/
structure MailMessage where
  Get : String → String
  Body : Except GoError String

/-- Embeds `func (msg *Message) FromReader(stream io.Reader) error`, with
`mail.ReadMessage` a parameter. Returns the error and the receiver after the
call: on an error the receiver is untouched, otherwise nine of its fields are
assigned. -/
def Message.FromReader (ReadMessage : String → Except GoError MailMessage)
    (msg : Message) (stream : String) : Option GoError × Message :=
  match ReadMessage stream with
  | .error err => (some err, msg)
  | .ok inMessage =>
    match inMessage.Body with
    | .error err => (some err, msg)
    | .ok body =>
      let msg := { msg with Subject := inMessage.Get "Subject" }
      let msg := { msg with From := inMessage.Get "From" }
      let msg := { msg with ID := inMessage.Get "Message-ID" }
      let msg := { msg with InReplyTo := inMessage.Get "In-Reply-To" }
      let msg := { msg with Body := body }
      let msg := { msg with To := inMessage.Get "To" }
      let msg := { msg with Cc := inMessage.Get "Cc" }
      let msg := { msg with Bcc := inMessage.Get "Bcc" }
      let msg := { msg with Date := inMessage.Get "Date" }
      (none, msg)

/-- Embeds `func (msg *Message) Reply() *Message`; `now` is
`time.Now().Format("Mon, 2 Jan 2006 15:04:05 -0700")`. -/
def Message.Reply (msg : Message) (now : String) : Message :=
  let reply := Message.zero
  let reply := { reply with Subject := "Re: " ++ msg.Subject }
  let reply := { reply with To := msg.From }
  let reply := { reply with InReplyTo := msg.ID }
  let reply := { reply with Date := now }
  reply

/-- The loop of `ResendAs` over the parsed Bcc addresses: does it reach the
assignment (and `break`)? -/
def ResendAs.bccLoop (listID : String) : List MailAddress → Bool
  | [] => false
  | bcc :: rest => if bcc.Address == listID then true else ResendAs.bccLoop listID rest

/-- Embeds `func (msg *Message) ResendAs(list *List, commandAddress string) *Message`, with
`mail.ParseAddressList` a parameter. The first component is the receiver after
the call (the body never assigns to `msg`), the second the returned copy. -/
def Message.ResendAs {σ : Type} (ParseAddressList : String → Except GoError (List MailAddress))
    (msg : Message) (list : MailList σ) (commandAddress : String) : Message × Message :=
  let send := Message.zero
  let send := { send with Subject := msg.Subject }
  let send := { send with From := msg.From }
  let send := { send with To := msg.To }
  let send := { send with Cc := msg.Cc }
  let send := { send with Date := msg.Date }
  let send := { send with ID := msg.ID }
  let send := { send with InReplyTo := msg.InReplyTo }
  let send := { send with XList := list.Name ++ " <" ++ list.ID ++ ">" }
  let send :=
    if !list.Locked then
      { send with ListUnsubscribe := "<mailto:" ++ commandAddress ++ "?subject=unsubscribe>" }
    else send
  let send :=
    match ParseAddressList msg.Bcc with
    | .ok bccList =>
      if ResendAs.bccLoop list.ID bccList then
        { send with Bcc := list.Name ++ " <" ++ list.ID ++ ">" }
      else send
    | .error _ => send
  (msg, send)

/-- Embeds `func (msg *Message) String() string` (named `GoString` here): the bytes
written to the buffer, in order. -/
def Message.GoString (msg : Message) : String :=
  let buf := ""
  let buf := buf ++ ("From: " ++ msg.From ++ "\r\n")
  let buf := buf ++ ("To: " ++ msg.To ++ "\r\n")
  let buf := buf ++ ("Cc: " ++ msg.Cc ++ "\r\n")
  let buf := buf ++ ("Bcc: " ++ msg.Bcc ++ "\r\n")
  let buf := if msg.Date.length > 0 then buf ++ ("Date: " ++ msg.Date ++ "\r\n") else buf
  let buf := if msg.ID.length > 0 then buf ++ ("Messsage-ID: " ++ msg.ID ++ "\r\n") else buf
  let buf := buf ++ ("In-Reply-To: " ++ msg.InReplyTo ++ "\r\n")
  let buf :=
    if msg.XList.length > 0 then
      buf ++ ("X-Mailing-List: " ++ msg.XList ++ "\r\n")
          ++ ("List-ID: " ++ msg.XList ++ "\r\n")
          ++ ("Sender: " ++ msg.XList ++ "\r\n")
    else buf
  let buf :=
    if msg.ListUnsubscribe.length > 0 then
      buf ++ ("List-Unsubscribe: " ++ msg.ListUnsubscribe ++ "\r\n")
    else buf
  let buf :=
    if msg.ContentType.length > 0 then buf ++ ("Content-Type: " ++ msg.ContentType ++ "\r\n")
    else buf
  let buf := buf ++ ("Subject: " ++ msg.Subject ++ "\r\n")
  let buf := buf ++ ("\r\n" ++ msg.Body)
  buf

/-- Embeds `func (msg *Message) SendDebug(envelopeSender string, recipients []string) string`. -/
def Message.SendDebug (msg : Message) (envelopeSender : String) (recipients : List String) :
    String :=
  let out := "------------------------------------------------------------\nSENDING MESSAGE FROM "
    ++ envelopeSender ++ " TO:\n"
  let out := recipients.foldl (fun out r => out ++ (" - " ++ r ++ "\n")) out
  out ++ ("MESSAGE:\n" ++ msg.GoString ++ "\n")

/-- Embeds `func (msg *Message) Send(envelopeSender string, recipients []string,
SMTPHostname string, SMTPPort uint64, SMTPUsername string, SMTPPassword string, debug bool) error`.
`logPrint` (`log.Print`) and `SendMail` act on the world `σ`; the `smtp.Auth` value
is given by the arguments of `smtp.PlainAuth`, `none` standing for the nil auth. -/
def Message.Send {σ : Type} (logPrint : String → σ → σ)
    (SendMail : String → Option (String × String × String × String) → String → List String →
      String → σ → Option GoError × σ)
    (msg : Message) (envelopeSender : String) (recipients : List String)
    (SMTPHostname : String) (SMTPPort : Nat) (SMTPUsername SMTPPassword : String) (debug : Bool)
    (s : σ) : Option GoError × σ :=
  if debug then
    (none, logPrint (msg.SendDebug envelopeSender recipients) s)
  else
    let auth : Option (String × String × String × String) :=
      if SMTPUsername != "" then some ("", SMTPUsername, SMTPPassword, SMTPHostname) else none
    SendMail (SMTPHostname ++ ":" ++ toString SMTPPort) auth envelopeSender recipients
      msg.GoString s

/-- The serialization the specification describes: the same lines as `GoString`,
with the identifier line spelled `Message-ID`. -/
def Message.specString (msg : Message) : String :=
  "From: " ++ msg.From ++ "\r\n"
  ++ ("To: " ++ msg.To ++ "\r\n")
  ++ ("Cc: " ++ msg.Cc ++ "\r\n")
  ++ ("Bcc: " ++ msg.Bcc ++ "\r\n")
  ++ (if msg.Date = "" then "" else "Date: " ++ msg.Date ++ "\r\n")
  ++ (if msg.ID = "" then "" else "Message-ID: " ++ msg.ID ++ "\r\n")
  ++ ("In-Reply-To: " ++ msg.InReplyTo ++ "\r\n")
  ++ (if msg.XList = "" then ""
      else "X-Mailing-List: " ++ msg.XList ++ "\r\n"
        ++ ("List-ID: " ++ msg.XList ++ "\r\n")
        ++ ("Sender: " ++ msg.XList ++ "\r\n"))
  ++ (if msg.ListUnsubscribe = "" then ""
      else "List-Unsubscribe: " ++ msg.ListUnsubscribe ++ "\r\n")
  ++ (if msg.ContentType = "" then "" else "Content-Type: " ++ msg.ContentType ++ "\r\n")
  ++ ("Subject: " ++ msg.Subject ++ "\r\n")
  ++ ("\r\n" ++ msg.Body)

/-- A list used to instantiate the theorems at concrete inputs: no store, nobody
subscribed. -/
def sampleList : MailList Unit :=
  { ID := "dev@example.com", Name := "Dev", Description := "", Address := "dev@example.com",
    Hidden := false, Locked := false, SubscribersOnly := false, Posters := [], Bcc := [],
    Subscribe := fun _ s => (none, s), Unsubscribe := fun _ s => (none, s),
    Subscribers := fun _ => .ok [], IsSubscribed := fun _ => (false, none) }

/-! ## `commands.go`: address normalisation

`assureAddress` and `assureAddresses` receive a pointer. Memory is a list of
cells, a pointer is `none` (nil) or the index of a cell, and each function
returns its error together with the memory after the call, so that what the
caller sees through its own pointer can be read off. -/

/-- Embeds `func assureAddress(a *string) error`, with `mail.ParseAddress` a parameter.
The final statement `a = &obj.Address` makes the parameter `a` point to the
`Address` field of the freshly parsed object (a new cell); it does not store
through the pointer the caller passed. -/
def assureAddress (ParseAddress : String → Except GoError MailAddress)
    (mem : List String) (a : Option Nat) : Option GoError × List String :=
  match a with
  | none => (none, mem)
  | some p =>
    if mem.getD p "" == "" then (none, mem)
    else
      match ParseAddress (mem.getD p "") with
      | .error err => (some err, mem)
      | .ok obj =>
        let mem := mem ++ [obj.Address]
        let _a : Option Nat := some (mem.length - 1)
        (none, mem)

/-- The loop of `assureAddresses` building the local slice `r`. -/
def assureAddresses.loop (ParseAddress : String → Except GoError MailAddress) :
    List String → List String → Except GoError (List String)
  | [], r => .ok r
  | v :: rest, r =>
    if v == "" then assureAddresses.loop ParseAddress rest (r ++ [""])
    else
      match ParseAddress v with
      | .error err => .error err
      | .ok obj => assureAddresses.loop ParseAddress rest (r ++ [obj.Address])

/-- Embeds `func assureAddresses(a *[]string) error`, with `mail.ParseAddress` a parameter.
The final statement `a = &r` makes the parameter `a` point to the local slice
`r` (a new cell); it does not store through the pointer the caller passed. -/
def assureAddresses (ParseAddress : String → Except GoError MailAddress)
    (mem : List (List String)) (a : Option Nat) : Option GoError × List (List String) :=
  match a with
  | none => (none, mem)
  | some p =>
    match assureAddresses.loop ParseAddress (mem.getD p []) [] with
    | .error err => (some err, mem)
    | .ok r =>
      let mem := mem ++ [r]
      let _a : Option Nat := some (mem.length - 1)
      (none, mem)

/-- A stand-in for `mail.ParseAddress` on the inputs used below: it accepts
`"Alice <alice@example.com>"` and the bare address, and rejects everything else. -/
def sampleParseAddress (s : String) : Except GoError MailAddress :=
  if s = "Alice <alice@example.com>" then .ok { Name := "Alice", Address := "alice@example.com" }
  else if s = "alice@example.com" then .ok { Name := "", Address := "alice@example.com" }
  else .error "mail: missing '@' or angle-addr"

/-! ## `commands.go`: the `create` and `modify` commands -/

/-- The values held by a `commandListOptions` once the command line is parsed
(the field `List` is declared last, so that it does not hide the type `List`). -/
structure commandListOptions where
  Name : String
  Description : String
  Flags : List String
  Posters : List String
  Bcc : List String
  List : String
  deriving DecidableEq, Repr

/-- Modelled from the spec: the `Definition` record is declared outside the given
sources; its fields are those `create` and `modify` assign, with the types of
the matching `List` fields. -/
structure Definition where
  Address : String
  Name : String
  Description : String
  Hidden : Bool
  Locked : Bool
  SubscribersOnly : Bool
  Posters : List String
  Bcc : List String
  deriving DecidableEq, Repr

/-- The values `Enums("locked", "hidden", "subscribers_only", "")` accepts for one
`--flag` occurrence (`addCommandListOptions`). -/
def acceptedFlags : List String := ["locked", "hidden", "subscribers_only", ""]

/-- The `for _, flag := range ... { switch flag { ... } }` loop shared, verbatim, by
`create` and `modify`. -/
def flagLoop : List String → Definition → Definition
  | [], d => d
  | flag :: rest, d =>
    let d :=
      if flag == "hidden" then { d with Hidden := true }
      else if flag == "locked" then { d with Locked := true }
      else if flag == "subscribersOnly" then { d with SubscribersOnly := true }
      else d
    flagLoop rest d

/-- The loops `for _, address := range ... { if address != "" { append } }` of
`create` and `modify`, started from the empty slice. -/
def nonEmptyAddresses (addresses : List String) : List String :=
  addresses.filter (fun address => address != "")

/-- The `Definition` that `create` hands to `bot.CreateList`. Posters and Bcc
are read from `modifyOptions`, as in the source. -/
def Command.createDefinition (createOptions modifyOptions : commandListOptions) : Definition :=
  let d : Definition :=
    { Address := createOptions.List, Name := createOptions.Name,
      Description := createOptions.Description,
      Hidden := false, Locked := false, SubscribersOnly := false, Posters := [], Bcc := [] }
  let d := flagLoop createOptions.Flags d
  let d := { d with Posters := nonEmptyAddresses modifyOptions.Posters }
  let d := { d with Bcc := nonEmptyAddresses modifyOptions.Bcc }
  d

/-- Embeds `func (c *Command) create(ctx) error`: `bot` is the outcome of `c.botFactory(ctx)`,
given by its `CreateList` method acting on the store `τ`. -/
def Command.create {τ : Type} (bot : Except GoError (Definition → τ → Option GoError × τ))
    (createOptions modifyOptions : commandListOptions) (s : τ) : Option GoError × τ :=
  match bot with
  | .error err => (some err, s)
  | .ok CreateList => CreateList (Command.createDefinition createOptions modifyOptions) s

/-- The `Definition` that `modify` hands to `bot.ModifyList`, from the list found
by `bot.LookupList`. -/
def Command.modifyDefinition {σ : Type} (list : MailList σ) (modifyOptions : commandListOptions) :
    Definition :=
  let d : Definition :=
    { Address := modifyOptions.List, Name := "", Description := "",
      Hidden := false, Locked := false, SubscribersOnly := false, Posters := [], Bcc := [] }
  let d := if modifyOptions.Name != "" then { d with Name := modifyOptions.Name }
    else { d with Name := list.Name }
  let d := if modifyOptions.Description != "" then
      { d with Description := modifyOptions.Description }
    else { d with Description := list.Description }
  let d := if modifyOptions.Posters.length > 0 then
      { d with Posters := nonEmptyAddresses modifyOptions.Posters }
    else { d with Posters := list.Posters }
  let d := if modifyOptions.Bcc.length > 0 then
      { d with Bcc := nonEmptyAddresses modifyOptions.Bcc }
    else { d with Bcc := list.Bcc }
  let d := if modifyOptions.Flags.length > 0 then flagLoop modifyOptions.Flags d
    else { d with Hidden := list.Hidden, Locked := list.Locked,
                  SubscribersOnly := list.SubscribersOnly }
  d

/-- Embeds `func (c *Command) modify(ctx) error`: `bot` is the outcome of `c.botFactory(ctx)`,
given by its `LookupList` and `ModifyList` methods. -/
def Command.modify {σ τ : Type}
    (bot : Except GoError
      ((String → τ → Except GoError (MailList σ)) ×
       (MailList σ → Definition → τ → Option GoError × τ)))
    (modifyOptions : commandListOptions) (s : τ) : Option GoError × τ :=
  match bot with
  | .error err => (some err, s)
  | .ok (LookupList, ModifyList) =>
    match LookupList modifyOptions.List s with
    | .error err => (some err, s)
    | .ok list => ModifyList list (Command.modifyDefinition list modifyOptions) s

/-! ## Round trip through `String` and `FromReader`

`mail.ReadMessage` is a library function. What the round trip needs of it is
stated as a contract on header blocks (`ReadsHeaderBlocks`); a small reader
meeting the contract (`readHeaderBlock`) shows that the contract can be met. -/

/-- The round trip of one message: `FromReader`, called on the receiver `msg0`
with the serialization of `m`, succeeds and leaves the Subject and the Body of
`m` in the receiver. -/
def RoundTrips (ReadMessage : String → Except GoError MailMessage) (msg0 m : Message) : Prop :=
  (msg0.FromReader ReadMessage m.GoString).1 = none ∧
  (msg0.FromReader ReadMessage m.GoString).2.Subject = m.Subject ∧
  (msg0.FromReader ReadMessage m.GoString).2.Body = m.Body

instance (ReadMessage : String → Except GoError MailMessage) (msg0 m : Message) :
    Decidable (RoundTrips ReadMessage msg0 m) := by
  unfold RoundTrips
  infer_instance

/-- A header field name made of ASCII letters, digits and `'-'`, not empty. -/
def fieldNameOk (name : String) : Bool :=
  name.data != [] && name.data.all fun c => c.isAlphanum || c == '-'

/-- A header field value that stays on its line: no control character other
than the tab, so in particular neither CR nor LF. -/
def fieldValueOk (value : String) : Bool :=
  value.data.all fun c => c == '\t' || (32 ≤ c.val && c.val != 127)

/-- Space or tab. -/
def isBlank (c : Char) : Bool := c == ' ' || c == '\t'

/-- Drop the spaces and tabs at both ends. -/
def trimBlank (cs : List Char) : List Char :=
  ((cs.dropWhile isBlank).reverse.dropWhile isBlank).reverse

/-- The wire form of a header block and body: one CRLF-terminated line
`name: value` per field, an empty line, the body. -/
def wire : List (String × String) → String → String
  | [], body => "\r\n" ++ body
  | f :: fs, body => f.1 ++ ": " ++ f.2 ++ "\r\n" ++ wire fs body

/-- Field names agree up to the case of ASCII letters. -/
def sameFieldName (a b : String) : Bool :=
  a.data.map Char.toLower == b.data.map Char.toLower

/-- The value `Header.Get(key)` has for a block of fields: that of the first field
named `key` (up to case), blanks at both ends dropped, or `""` when there is none. -/
def headerGet (fields : List (String × String)) (key : String) : String :=
  match fields.find? (fun f => sameFieldName f.1 key) with
  | some f => String.mk (trimBlank f.2.data)
  | none => ""

/-- The contract on `mail.ReadMessage` used by the round trip: a stream that is
the wire form of well-formed fields and a body is read without error, the body
comes back verbatim, and `Header.Get` answers as `headerGet`. -/
def ReadsHeaderBlocks (ReadMessage : String → Except GoError MailMessage) : Prop :=
  ∀ (fields : List (String × String)) (body : String),
    (∀ f ∈ fields, fieldNameOk f.1 = true ∧ fieldValueOk f.2 = true) →
    ∃ inMessage, ReadMessage (wire fields body) = .ok inMessage ∧
      inMessage.Body = .ok body ∧
      ∀ key, fieldNameOk key = true → inMessage.Get key = headerGet fields key

/-- The header fields `String()` writes for a message, in order. -/
def Message.fields (msg : Message) : List (String × String) :=
  [("From", msg.From), ("To", msg.To), ("Cc", msg.Cc), ("Bcc", msg.Bcc)]
  ++ (if msg.Date = "" then [] else [("Date", msg.Date)])
  ++ (if msg.ID = "" then [] else [("Messsage-ID", msg.ID)])
  ++ [("In-Reply-To", msg.InReplyTo)]
  ++ (if msg.XList = "" then []
      else [("X-Mailing-List", msg.XList), ("List-ID", msg.XList), ("Sender", msg.XList)])
  ++ (if msg.ListUnsubscribe = "" then [] else [("List-Unsubscribe", msg.ListUnsubscribe)])
  ++ (if msg.ContentType = "" then [] else [("Content-Type", msg.ContentType)])
  ++ [("Subject", msg.Subject)]

/-- Every header field of the message stays on its line when written. -/
def Message.headerSafe (msg : Message) : Bool :=
  fieldValueOk msg.From && fieldValueOk msg.To && fieldValueOk msg.Cc && fieldValueOk msg.Bcc
  && fieldValueOk msg.Date && fieldValueOk msg.ID && fieldValueOk msg.InReplyTo
  && fieldValueOk msg.XList && fieldValueOk msg.ListUnsubscribe
  && fieldValueOk msg.ContentType && fieldValueOk msg.Subject

/-- Read one line: the text before the first CRLF and the text after it; `none`
when the input has no CRLF. -/
def readLine : List Char → Option (List Char × List Char)
  | [] => none
  | c :: rest =>
    if c = '\r' ∧ rest.head? = some '\n' then some ([], rest.tail)
    else match readLine rest with
      | none => none
      | some (line, after) => some (c :: line, after)

/-- Read header lines up to the empty line; `fuel` bounds the number of lines. -/
def readFields : Nat → List Char → Except GoError (List (String × String) × List Char)
  | 0, _ => .error "mail: header too long"
  | fuel + 1, input =>
    match readLine input with
    | none => .error "EOF"
    | some (line, after) =>
      if line = [] then .ok ([], after)
      else match cutFirst ':' line with
        | none => .error ("malformed header line: " ++ String.mk line)
        | some (name, value) =>
          match readFields fuel after with
          | .error err => .error err
          | .ok (fields, body) => .ok ((String.mk name, String.mk (trimBlank value)) :: fields, body)

/-- A reader of header blocks meeting `ReadsHeaderBlocks`. -/
def readHeaderBlock (stream : String) : Except GoError MailMessage :=
  match readFields (stream.data.length + 1) stream.data with
  | .error err => .error err
  | .ok (fields, body) =>
    .ok { Get := fun key =>
            match fields.find? (fun f => sameFieldName f.1 key) with
            | some f => f.2
            | none => "",
          Body := .ok (String.mk body) }

/-! ## Theorems -/

theorem CanPost.loop_eq_true_iff (frm : String) (posters : List String) :
    CanPost.loop frm posters = true ↔ frm ∈ posters := by
  induction posters with
  | nil => simp [CanPost.loop]
  | cons p ps ih =>
    by_cases h : frm = p
    · simp [CanPost.loop, h]
    · simp [CanPost.loop, h, ih]

/-- C1: `CanPost(from)` is true exactly when the subscribers-only check passes
(the flag is off, or `IsSubscribed(from)` answers true without error) and the
whitelist check passes (`Posters` is empty, or `from` equals one of its entries).
In particular a subscribers-only list denies a non-subscriber and a failed
lookup whatever its `Posters`, and a list with the flag off and no `Posters`
allows every sender. -/
theorem canPost_iff {σ : Type} (list : MailList σ) (frm : String) :
    (list.CanPost frm = true ↔
      (list.SubscribersOnly = false ∨ list.IsSubscribed frm = (true, none)) ∧
      (list.Posters = [] ∨ frm ∈ list.Posters)) ∧
    (∀ err : Option GoError,
      ({ list with SubscribersOnly := true, IsSubscribed := fun _ => (false, err) }).CanPost frm
        = false) ∧
    (∀ (ok : Bool) (err : GoError),
      ({ list with SubscribersOnly := true, IsSubscribed := fun _ => (ok, some err) }).CanPost frm
        = false) ∧
    ({ list with SubscribersOnly := false, Posters := [] }).CanPost frm = true := by
  refine ⟨?_, ?_, ?_, ?_⟩
  · unfold MailList.CanPost
    rcases hs : list.IsSubscribed frm with ⟨ok, err⟩
    cases hso : list.SubscribersOnly <;> cases hp : list.Posters <;> cases ok <;> cases err <;>
      simp [CanPost.loop_eq_true_iff]
  · intro err
    cases err <;> simp [MailList.CanPost]
  · intro ok err
    simp [MailList.CanPost]
  · simp [MailList.CanPost]

theorem cutFirst_append (sep : Char) (a b : List Char) (h : sep ∉ a) :
    cutFirst sep (a ++ sep :: b) = some (a, b) := by
  induction a with
  | nil => simp [cutFirst]
  | cons c cs ih =>
    have hc : c ≠ sep := fun e => h (by simp [e])
    have hcs : sep ∉ cs := fun e => h (by simp [e])
    simp [cutFirst, hc, ih hcs]

theorem cutFirst_eq_none (sep : Char) (s : List Char) (h : sep ∉ s) :
    cutFirst sep s = none := by
  induction s with
  | nil => rfl
  | cons c cs ih =>
    have hc : c ≠ sep := fun e => h (by simp [e])
    have hcs : sep ∉ cs := fun e => h (by simp [e])
    simp [cutFirst, hc, ih hcs]

theorem cutFirst_isSome (sep : Char) (s : List Char) (h : sep ∈ s) :
    ∃ a b, cutFirst sep s = some (a, b) := by
  induction s with
  | nil => simp at h
  | cons c cs ih =>
    by_cases hc : c = sep
    · exact ⟨[], cs, by simp [cutFirst, hc]⟩
    · have hcs : sep ∈ cs := by
        rcases List.mem_cons.mp h with e | e
        · exact absurd e.symm hc
        · exact e
      obtain ⟨a, b, hab⟩ := ih hcs
      exact ⟨c :: a, b, by simp [cutFirst, hc, hab]⟩

theorem SplitN2_of_at (loc dom : String) (h : '@' ∉ loc.data) :
    SplitN2 (loc ++ "@" ++ dom) '@' = [loc, dom] := by
  have hd : (loc ++ "@" ++ dom).data = loc.data ++ '@' :: dom.data := by
    simp [String.data_append]
  simp [SplitN2, hd, cutFirst_append _ _ _ h]

theorem SplitN2_length_of_mem (s : String) (h : '@' ∈ s.data) : (SplitN2 s '@').length = 2 := by
  obtain ⟨a, b, hab⟩ := cutFirst_isSome '@' s.data h
  simp [SplitN2, hab]

theorem SplitN2_of_not_mem (s : String) (h : '@' ∉ s.data) : SplitN2 s '@' = [s] := by
  simp [SplitN2, cutFirst_eq_none _ _ h]

theorem SendVERP.loop_recording (deliver : String → List String → Option GoError)
    (parts : List String) (recipients : List String) (errors : List GoError) (log : List Attempt) :
    SendVERP.loop (recording deliver) parts recipients errors log =
      (errors ++ recipients.filterMap (fun r => deliver (verpEnvelope parts r) [r]),
       log ++ recipients.map (fun r => (verpEnvelope parts r, [r]))) := by
  induction recipients generalizing errors log with
  | nil => simp [SendVERP.loop]
  | cons r rs ih =>
    cases hd : deliver (verpEnvelope parts r) [r] with
    | none => simp [SendVERP.loop, recording, hd, ih]
    | some e => simp [SendVERP.loop, recording, hd, ih]

/-- C2: with a delivery whose outcome is a function of (envelope, recipients), a
sender containing `'@'` makes `SendVERP` attempt exactly one delivery per
recipient, in the order given and each to that single recipient, whatever the
earlier outcomes; the returned errors are those of the failed attempts in that
order, hence empty exactly when every attempt succeeded. -/
theorem sendVERP_one_attempt_each (deliver : String → List String → Option GoError)
    (envelopeSender : String) (recipients : List String)
    (h : '@' ∈ envelopeSender.data) :
    (SendVERP (recording deliver) envelopeSender recipients []).2.map Prod.snd
        = recipients.map (fun r => [r]) ∧
    (SendVERP (recording deliver) envelopeSender recipients []).2.length = recipients.length ∧
    (SendVERP (recording deliver) envelopeSender recipients []).1
        = (SendVERP (recording deliver) envelopeSender recipients []).2.filterMap
            (fun a => deliver a.1 a.2) ∧
    ((SendVERP (recording deliver) envelopeSender recipients []).1 = [] ↔
      ∀ a ∈ (SendVERP (recording deliver) envelopeSender recipients []).2,
        deliver a.1 a.2 = none) := by
  have hlen := SplitN2_length_of_mem envelopeSender h
  have hout : SendVERP (recording deliver) envelopeSender recipients [] =
      (recipients.filterMap (fun r => deliver (verpEnvelope (SplitN2 envelopeSender '@') r) [r]),
       recipients.map (fun r => (verpEnvelope (SplitN2 envelopeSender '@') r, [r]))) := by
    simp [SendVERP, hlen, SendVERP.loop_recording]
  rw [hout]
  refine ⟨?_, ?_, ?_, ?_⟩
  · simp [List.map_map, Function.comp_def]
  · simp
  · simp [List.filterMap_map, Function.comp_def]
  · simp [List.filterMap_eq_nil_iff]

/-- C2 at the spec's example: two recipients, the first delivery failing. -/
theorem sendVERP_one_attempt_each_witness :
    '@' ∈ "bounce@example.com".data ∧
    (SendVERP (recording fun _ rcpts => if rcpts = ["x@foo.com"] then some "550" else none)
        "bounce@example.com" ["x@foo.com", "y@bar.com"] []).2.map Prod.snd
      = [["x@foo.com"], ["y@bar.com"]] ∧
    (SendVERP (recording fun _ rcpts => if rcpts = ["x@foo.com"] then some "550" else none)
        "bounce@example.com" ["x@foo.com", "y@bar.com"] []).1.length = 1 :=
  ⟨by decide,
   (sendVERP_one_attempt_each
      (fun _ rcpts => if rcpts = ["x@foo.com"] then some "550" else none)
      "bounce@example.com" ["x@foo.com", "y@bar.com"] (by decide)).1,
   by decide⟩

/-- C3 as stated fails: the sender `"a@b@c"` holds two `'@'`, yet `SendVERP`
returns no error and makes a delivery attempt. -/
theorem sendVERP_two_ats_delivers :
    "a@b@c".data.count '@' = 2 ∧
    SendVERP (recording fun _ _ => none) "a@b@c" ["x@foo.com"] []
      = ([], [("a+x=foo.com@b@c", ["x@foo.com"])]) := by
  decide

/-- C3, amended: for a sender without any `'@'`, `SendVERP` returns exactly one
error, naming the sender, and makes no delivery attempt (the record of attempts
is the one it started with). -/
theorem sendVERP_invalid_sender (deliver : String → List String → Option GoError)
    (envelopeSender : String) (recipients : List String) (log : List Attempt)
    (h : '@' ∉ envelopeSender.data) :
    SendVERP (recording deliver) envelopeSender recipients log
        = (["Invalid envelope sender " ++ envelopeSender], log) ∧
    (SendVERP (recording deliver) envelopeSender recipients log).1.length = 1 := by
  simp [SendVERP, SplitN2_of_not_mem _ h]

/-- C3, amended, at the spec's example `"not-an-address"`. -/
theorem sendVERP_invalid_sender_witness :
    '@' ∉ "not-an-address".data ∧
    SendVERP (recording fun _ _ => none) "not-an-address" ["x@foo.com", "y@bar.com"] []
      = (["Invalid envelope sender not-an-address"], []) :=
  ⟨by decide,
   (sendVERP_invalid_sender (fun _ _ => none) "not-an-address" ["x@foo.com", "y@bar.com"] []
      (by decide)).1⟩

theorem replaceN_one_eq_map (old new : Char) (cs : List Char) (h : cs.count old ≤ 1) :
    replaceN old new 1 cs = cs.map (fun c => if c = old then new else c) := by
  induction cs with
  | nil => simp [replaceN]
  | cons c cs ih =>
    by_cases hc : c = old
    · subst hc
      have h0 : cs.count c = 0 := by
        simp [List.count_cons] at h
        exact h
      have hn : c ∉ cs := List.count_eq_zero.mp h0
      have hm : cs.map (fun d => if d = c then new else d) = cs := by
        conv_rhs => rw [← List.map_id cs]
        apply List.map_congr_left
        intro d hd
        have : d ≠ c := fun e => hn (e ▸ hd)
        simp [this]
      simp [replaceN, hm]
    · have h1 : cs.count old ≤ 1 := by
        have hc2 : ¬ (c == old) = true := by simpa using hc
        simpa [List.count_cons, hc2] using h
      simp [replaceN, hc, ih h1]

/-- C4 as stated fails: for the recipient `"a@b@c"` the envelope keeps the second
`'@'`, whereas replacing every `'@'` would give `"bounce+a=b=c@example.com"`. -/
theorem sendVERP_envelope_keeps_second_at :
    (SendVERP (recording fun _ _ => none) "bounce@example.com" ["a@b@c"] []).2
      = [("bounce+a=b@c@example.com", ["a@b@c"])] ∧
    "bounce" ++ "+" ++ replaceEvery "a@b@c" ++ "@" ++ "example.com"
      = "bounce+a=b=c@example.com" ∧
    "bounce+a=b@c@example.com" ≠ "bounce+a=b=c@example.com" := by
  decide

/-- C4, amended: for a sender `local@domain` (no `'@'` in `local`), the delivery of
each recipient `r` is given the envelope `local ++ "+" ++ r' ++ "@" ++ domain`
with `r'` the recipient after `strings.Replace(r, "@", "=", 1)`, that is with
its first `'@'` replaced; for a recipient holding at most one `'@'` this is `r`
with every `'@'` replaced. -/
theorem sendVERP_envelopes (deliver : String → List String → Option GoError)
    (loc dom : String) (recipients : List String) (h : '@' ∉ loc.data) :
    (SendVERP (recording deliver) (loc ++ "@" ++ dom) recipients []).2
      = recipients.map (fun r => (loc ++ "+" ++ Replace r '@' '=' 1 ++ "@" ++ dom, [r])) ∧
    (∀ r : String, r.data.count '@' ≤ 1 → Replace r '@' '=' 1 = replaceEvery r) := by
  constructor
  · simp [SendVERP, SplitN2_of_at loc dom h, SendVERP.loop_recording, verpEnvelope]
  · intro r hr
    simp [Replace, replaceEvery, replaceN_one_eq_map _ _ _ hr]

/-- C4, amended, at the spec's example. -/
theorem sendVERP_envelopes_witness :
    '@' ∉ "bounce".data ∧
    (SendVERP (recording fun _ _ => none) ("bounce" ++ "@" ++ "example.com")
        ["x@foo.com", "y@bar.com"] []).2
      = [("bounce+x=foo.com@example.com", ["x@foo.com"]),
         ("bounce+y=bar.com@example.com", ["y@bar.com"])] :=
  ⟨by decide,
   (sendVERP_envelopes (fun _ _ => none) "bounce" "example.com" ["x@foo.com", "y@bar.com"]
      (by decide)).1.trans (by decide)⟩

theorem length_pos_iff_ne_empty (s : String) : s.length > 0 ↔ s ≠ "" := by
  constructor
  · intro h e
    subst e
    simp at h
  · intro h
    rcases s with ⟨cs⟩
    cases cs with
    | nil => exact absurd rfl h
    | cons c cs => simp [String.length]

/-- The bytes `String()` writes, as one concatenation: the lines C5 lists, except
that the identifier line is spelled `Messsage-ID`. -/
theorem Message.goString_eq (msg : Message) :
    msg.GoString =
      "From: " ++ msg.From ++ "\r\n"
      ++ ("To: " ++ msg.To ++ "\r\n")
      ++ ("Cc: " ++ msg.Cc ++ "\r\n")
      ++ ("Bcc: " ++ msg.Bcc ++ "\r\n")
      ++ (if msg.Date = "" then "" else "Date: " ++ msg.Date ++ "\r\n")
      ++ (if msg.ID = "" then "" else "Messsage-ID: " ++ msg.ID ++ "\r\n")
      ++ ("In-Reply-To: " ++ msg.InReplyTo ++ "\r\n")
      ++ (if msg.XList = "" then ""
          else "X-Mailing-List: " ++ msg.XList ++ "\r\n"
            ++ ("List-ID: " ++ msg.XList ++ "\r\n")
            ++ ("Sender: " ++ msg.XList ++ "\r\n"))
      ++ (if msg.ListUnsubscribe = "" then ""
          else "List-Unsubscribe: " ++ msg.ListUnsubscribe ++ "\r\n")
      ++ (if msg.ContentType = "" then "" else "Content-Type: " ++ msg.ContentType ++ "\r\n")
      ++ ("Subject: " ++ msg.Subject ++ "\r\n")
      ++ ("\r\n" ++ msg.Body) := by
  unfold Message.GoString
  simp only [length_pos_iff_ne_empty]
  by_cases h1 : msg.Date = "" <;> by_cases h2 : msg.ID = "" <;>
    by_cases h3 : msg.XList = "" <;> by_cases h4 : msg.ListUnsubscribe = "" <;>
    by_cases h5 : msg.ContentType = "" <;>
    simp [h1, h2, h3, h4, h5, String.append_assoc]

/-- C5 fails on the code where the message has an ID: the identifier line is
written as `Messsage-ID: ` (three `s`), not `Message-ID: `. -/
theorem goString_misspells_message_id :
    ({ Message.zero with ID := "<1@x>" }).GoString
      = "From: \r\nTo: \r\nCc: \r\nBcc: \r\nMesssage-ID: <1@x>\r\nIn-Reply-To: \r\nSubject: \r\n\r\n" ∧
    ({ Message.zero with ID := "<1@x>" }).specString
      = "From: \r\nTo: \r\nCc: \r\nBcc: \r\nMessage-ID: <1@x>\r\nIn-Reply-To: \r\nSubject: \r\n\r\n" ∧
    ({ Message.zero with ID := "<1@x>" }).GoString
      ≠ ({ Message.zero with ID := "<1@x>" }).specString := by
  decide

/-- Where the message has no ID, the code and the specified serialization agree. -/
theorem Message.goString_eq_specString_of_no_id (msg : Message) (h : msg.ID = "") :
    msg.GoString = msg.specString := by
  rw [Message.goString_eq]
  simp [Message.specString, h]

theorem ResendAs.bccLoop_eq_true_iff (listID : String) (bccList : List MailAddress) :
    ResendAs.bccLoop listID bccList = true ↔ ∃ a ∈ bccList, a.Address = listID := by
  induction bccList with
  | nil => simp [ResendAs.bccLoop]
  | cons b bs ih =>
    by_cases h : b.Address = listID
    · simp [ResendAs.bccLoop, h]
    · simp [ResendAs.bccLoop, h, ih]

theorem listBanner_ne_empty (name id : String) : name ++ " <" ++ id ++ ">" ≠ "" := by
  intro h
  have hl := congrArg String.length h
  simp only [String.length_append] at hl
  have h1 : (">" : String).length = 1 := by decide
  have h0 : ("" : String).length = 0 := by decide
  omega

/-- C6: the Bcc of the copy returned by `ResendAs` is `list.Name ++ " <" ++ list.ID ++ ">"`
when the source Bcc parses and one parsed address equals the list's ID, and is
empty in every other case; so it is non-empty exactly in the first case. -/
theorem resendAs_bcc {σ : Type} (ParseAddressList : String → Except GoError (List MailAddress))
    (msg : Message) (list : MailList σ) (commandAddress : String) :
    ((∃ bccList, ParseAddressList msg.Bcc = .ok bccList ∧ ∃ a ∈ bccList, a.Address = list.ID) →
      (msg.ResendAs ParseAddressList list commandAddress).2.Bcc
        = list.Name ++ " <" ++ list.ID ++ ">") ∧
    ((¬ ∃ bccList, ParseAddressList msg.Bcc = .ok bccList ∧ ∃ a ∈ bccList, a.Address = list.ID) →
      (msg.ResendAs ParseAddressList list commandAddress).2.Bcc = "") ∧
    ((msg.ResendAs ParseAddressList list commandAddress).2.Bcc ≠ "" ↔
      ∃ bccList, ParseAddressList msg.Bcc = .ok bccList ∧ ∃ a ∈ bccList, a.Address = list.ID) := by
  have key : (msg.ResendAs ParseAddressList list commandAddress).2.Bcc =
      match ParseAddressList msg.Bcc with
      | .ok bccList =>
        if ResendAs.bccLoop list.ID bccList then list.Name ++ " <" ++ list.ID ++ ">" else ""
      | .error _ => "" := by
    unfold Message.ResendAs
    cases hp : ParseAddressList msg.Bcc with
    | error e => cases hl : list.Locked <;> simp [Message.zero]
    | ok bccList =>
      cases hl : list.Locked <;> cases hb : ResendAs.bccLoop list.ID bccList <;>
        simp [Message.zero, hb]
  rw [key]
  cases hp : ParseAddressList msg.Bcc with
  | error e => simp
  | ok bccList =>
    by_cases hb : ResendAs.bccLoop list.ID bccList = true
    · have hex := (ResendAs.bccLoop_eq_true_iff _ _).mp hb
      simp [hb, hex, listBanner_ne_empty]
    · have hex : ¬ ∃ a ∈ bccList, a.Address = list.ID :=
        fun h => hb ((ResendAs.bccLoop_eq_true_iff _ _).mpr h)
      simp [hb, hex]

/-- C7: the copy returned by `ResendAs` carries over Subject, From, To, Cc, Date, ID
and InReplyTo, has `XList = list.Name ++ " <" ++ list.ID ++ ">"`, has an empty
`ListUnsubscribe` on a locked list and `"<mailto:" ++ commandAddress ++ "?subject=unsubscribe>"`
otherwise; the source message is as it was. -/
theorem resendAs_fields {σ : Type} (ParseAddressList : String → Except GoError (List MailAddress))
    (msg : Message) (list : MailList σ) (commandAddress : String) :
    (msg.ResendAs ParseAddressList list commandAddress).2.Subject = msg.Subject ∧
    (msg.ResendAs ParseAddressList list commandAddress).2.From = msg.From ∧
    (msg.ResendAs ParseAddressList list commandAddress).2.To = msg.To ∧
    (msg.ResendAs ParseAddressList list commandAddress).2.Cc = msg.Cc ∧
    (msg.ResendAs ParseAddressList list commandAddress).2.Date = msg.Date ∧
    (msg.ResendAs ParseAddressList list commandAddress).2.ID = msg.ID ∧
    (msg.ResendAs ParseAddressList list commandAddress).2.InReplyTo = msg.InReplyTo ∧
    (msg.ResendAs ParseAddressList list commandAddress).2.XList
      = list.Name ++ " <" ++ list.ID ++ ">" ∧
    (msg.ResendAs ParseAddressList list commandAddress).2.ListUnsubscribe
      = (if list.Locked = true then ""
         else "<mailto:" ++ commandAddress ++ "?subject=unsubscribe>") ∧
    (msg.ResendAs ParseAddressList list commandAddress).1 = msg := by
  unfold Message.ResendAs
  cases hp : ParseAddressList msg.Bcc with
  | error e => cases hl : list.Locked <;> simp [Message.zero]
  | ok bccList =>
    cases hl : list.Locked <;> cases hb : ResendAs.bccLoop list.ID bccList <;>
      simp [Message.zero, hb]

/-- C6 at a concrete input: the list's own address among the Bcc addresses of the
source is kept, in the list's `Name <ID>` form. -/
theorem resendAs_bcc_witness :
    (({ Message.zero with Bcc := "archive@example.com, dev@example.com" }).ResendAs
        (fun _ => .ok [{ Name := "", Address := "archive@example.com" },
                       { Name := "", Address := "dev@example.com" }])
        sampleList "cmd@example.com").2.Bcc = "Dev <dev@example.com>" :=
  ((resendAs_bcc
      (fun _ => .ok [{ Name := "", Address := "archive@example.com" },
                     { Name := "", Address := "dev@example.com" }])
      { Message.zero with Bcc := "archive@example.com, dev@example.com" }
      sampleList "cmd@example.com").1
    ⟨_, rfl, { Name := "", Address := "dev@example.com" }, by simp, rfl⟩).trans (by decide)

/-- Neither normaliser ever changes a cell that existed before the call: whatever
the caller passed a pointer to is as it was. -/
theorem assureAddress_keeps_cells (ParseAddress : String → Except GoError MailAddress)
    (mem : List String) (a : Option Nat) :
    (assureAddress ParseAddress mem a).2.take mem.length = mem := by
  unfold assureAddress
  split
  · simp
  · split
    · simp
    · split <;> simp

theorem assureAddresses_keeps_cells (ParseAddress : String → Except GoError MailAddress)
    (mem : List (List String)) (a : Option Nat) :
    (assureAddresses ParseAddress mem a).2.take mem.length = mem := by
  unfold assureAddresses
  split
  · simp
  · split <;> simp

/-- C8 fails on the code: with a parser that turns `"Alice <alice@example.com>"` into
the address `alice@example.com`, both normalisers return without error and the
cell the caller pointed to (cell 0) still holds the input; the canonical form
sits in a new cell that only the callee's own parameter referred to. -/
theorem assureAddress_discards_canonical_form :
    assureAddress sampleParseAddress ["Alice <alice@example.com>"] (some 0)
      = (none, ["Alice <alice@example.com>", "alice@example.com"]) ∧
    (assureAddress sampleParseAddress ["Alice <alice@example.com>"] (some 0)).2.getD 0 ""
      ≠ "alice@example.com" ∧
    assureAddresses sampleParseAddress [["Alice <alice@example.com>", ""]] (some 0)
      = (none, [["Alice <alice@example.com>", ""], ["alice@example.com", ""]]) ∧
    (assureAddresses sampleParseAddress [["Alice <alice@example.com>", ""]] (some 0)).2.getD 0 []
      ≠ ["alice@example.com", ""] := by
  decide

theorem flagLoop_subscribersOnly (flags : List String) (d : Definition)
    (h : ∀ f ∈ flags, f ∈ acceptedFlags) :
    (flagLoop flags d).SubscribersOnly = d.SubscribersOnly := by
  induction flags generalizing d with
  | nil => rfl
  | cons f fs ih =>
    have hf : f ∈ acceptedFlags := h f (by simp)
    have hfs : ∀ g ∈ fs, g ∈ acceptedFlags := fun g hg => h g (by simp [hg])
    simp only [acceptedFlags, List.mem_cons, List.mem_singleton, List.not_mem_nil, or_false] at hf
    rcases hf with e | e | e | e <;> subst e <;> simp [flagLoop, ih _ hfs]

theorem flagLoop_hidden (flags : List String) (d : Definition) :
    (flagLoop flags d).Hidden = (d.Hidden || decide ("hidden" ∈ flags)) := by
  induction flags generalizing d with
  | nil => simp [flagLoop]
  | cons f fs ih =>
    by_cases h1 : f = "hidden"
    · subst h1; simp [flagLoop, ih]
    · have h1' : ¬ "hidden" = f := fun e => h1 e.symm
      by_cases h2 : f = "locked"
      · subst h2; simp [flagLoop, ih]
      · by_cases h3 : f = "subscribersOnly"
        · subst h3; simp [flagLoop, ih]
        · simp [flagLoop, ih, h1, h1', h2, h3]

theorem flagLoop_locked (flags : List String) (d : Definition) :
    (flagLoop flags d).Locked = (d.Locked || decide ("locked" ∈ flags)) := by
  induction flags generalizing d with
  | nil => simp [flagLoop]
  | cons f fs ih =>
    by_cases h1 : f = "hidden"
    · subst h1; simp [flagLoop, ih]
    · by_cases h2 : f = "locked"
      · subst h2; simp [flagLoop, ih]
      · have h2' : ¬ "locked" = f := fun e => h2 e.symm
        by_cases h3 : f = "subscribersOnly"
        · subst h3; simp [flagLoop, ih]
        · simp [flagLoop, ih, h1, h2, h2', h3]

/-- For every accepted flag sequence, `create` sets Hidden and Locked as C10 says
and never sets SubscribersOnly. -/
theorem createDefinition_flags (createOptions modifyOptions : commandListOptions)
    (h : ∀ f ∈ createOptions.Flags, f ∈ acceptedFlags) :
    ((Command.createDefinition createOptions modifyOptions).Hidden = true
      ↔ "hidden" ∈ createOptions.Flags) ∧
    ((Command.createDefinition createOptions modifyOptions).Locked = true
      ↔ "locked" ∈ createOptions.Flags) ∧
    (Command.createDefinition createOptions modifyOptions).SubscribersOnly = false := by
  simp [Command.createDefinition, flagLoop_hidden, flagLoop_locked, flagLoop_subscribersOnly _ _ h]

/-- C10 fails on the code: the accepted flag `"subscribers_only"` leaves
`SubscribersOnly` false in the definition built by `create` and by `modify`
(the loop tests for `"subscribersOnly"`, which the option does not accept),
while `"hidden"` and `"locked"` are honoured. -/
theorem subscribers_only_flag_ignored :
    "subscribers_only" ∈ acceptedFlags ∧ "subscribersOnly" ∉ acceptedFlags ∧
    Command.createDefinition
        { List := "dev@example.com", Name := "Dev", Description := "",
          Flags := ["hidden", "subscribers_only", "locked"], Posters := [], Bcc := [] }
        { List := "", Name := "", Description := "", Flags := [], Posters := [], Bcc := [] }
      = { Address := "dev@example.com", Name := "Dev", Description := "",
          Hidden := true, Locked := true, SubscribersOnly := false, Posters := [], Bcc := [] } ∧
    (Command.modifyDefinition sampleList
        { List := "dev@example.com", Name := "", Description := "",
          Flags := ["subscribers_only"], Posters := [], Bcc := [] }).SubscribersOnly = false := by
  decide

/-- C9 as stated fails, whatever `mail.ReadMessage` does: the two messages below
differ in Subject and in Body and have the same serialization, so no reader
gives both of them back. -/
theorem roundTrip_fails_on_line_break :
    ({ Message.zero with Subject := "a\r\n\r\nb", Body := "c" }).GoString
      = ({ Message.zero with Subject := "a", Body := "b\r\n\r\nc" }).GoString ∧
    ¬ ∃ ReadMessage : String → Except GoError MailMessage,
        RoundTrips ReadMessage Message.zero
          { Message.zero with Subject := "a\r\n\r\nb", Body := "c" } ∧
        RoundTrips ReadMessage Message.zero
          { Message.zero with Subject := "a", Body := "b\r\n\r\nc" } := by
  have hs : ({ Message.zero with Subject := "a\r\n\r\nb", Body := "c" }).GoString
      = ({ Message.zero with Subject := "a", Body := "b\r\n\r\nc" }).GoString := by decide
  refine ⟨hs, ?_⟩
  rintro ⟨R, h1, h2⟩
  unfold RoundTrips at h1 h2
  rw [hs] at h1
  have hb := h1.2.2.symm.trans h2.2.2
  exact absurd hb (by decide)

theorem Message.goString_eq_wire (msg : Message) : msg.GoString = wire msg.fields msg.Body := by
  rw [Message.goString_eq]
  unfold Message.fields
  by_cases h1 : msg.Date = "" <;> by_cases h2 : msg.ID = "" <;>
    by_cases h3 : msg.XList = "" <;> by_cases h4 : msg.ListUnsubscribe = "" <;>
    by_cases h5 : msg.ContentType = "" <;>
    simp [h1, h2, h3, h4, h5, wire, String.append_assoc]

theorem Message.headerGet_subject (msg : Message) :
    headerGet msg.fields "Subject" = String.mk (trimBlank msg.Subject.data) := by
  unfold Message.fields headerGet
  have e1 : sameFieldName "From" "Subject" = false := by decide
  have e2 : sameFieldName "To" "Subject" = false := by decide
  have e3 : sameFieldName "Cc" "Subject" = false := by decide
  have e4 : sameFieldName "Bcc" "Subject" = false := by decide
  have e5 : sameFieldName "Date" "Subject" = false := by decide
  have e6 : sameFieldName "Messsage-ID" "Subject" = false := by decide
  have e7 : sameFieldName "In-Reply-To" "Subject" = false := by decide
  have e8 : sameFieldName "X-Mailing-List" "Subject" = false := by decide
  have e9 : sameFieldName "List-ID" "Subject" = false := by decide
  have e10 : sameFieldName "Sender" "Subject" = false := by decide
  have e11 : sameFieldName "List-Unsubscribe" "Subject" = false := by decide
  have e12 : sameFieldName "Content-Type" "Subject" = false := by decide
  have e13 : sameFieldName "Subject" "Subject" = true := by decide
  by_cases h1 : msg.Date = "" <;> by_cases h2 : msg.ID = "" <;>
    by_cases h3 : msg.XList = "" <;> by_cases h4 : msg.ListUnsubscribe = "" <;>
    by_cases h5 : msg.ContentType = "" <;>
    simp [h1, h2, h3, h4, h5, List.find?, e1, e2, e3, e4, e5, e6, e7, e8, e9, e10, e11, e12, e13]

theorem Message.fields_ok (msg : Message) (h : msg.headerSafe = true) :
    ∀ f ∈ msg.fields, fieldNameOk f.1 = true ∧ fieldValueOk f.2 = true := by
  simp only [Message.headerSafe, Bool.and_eq_true] at h
  obtain ⟨⟨⟨⟨⟨⟨⟨⟨⟨⟨a1, a2⟩, a3⟩, a4⟩, a5⟩, a6⟩, a7⟩, a8⟩, a9⟩, a10⟩, a11⟩ := h
  have n1 : fieldNameOk "From" = true := by decide
  have n2 : fieldNameOk "To" = true := by decide
  have n3 : fieldNameOk "Cc" = true := by decide
  have n4 : fieldNameOk "Bcc" = true := by decide
  have n5 : fieldNameOk "Date" = true := by decide
  have n6 : fieldNameOk "Messsage-ID" = true := by decide
  have n7 : fieldNameOk "In-Reply-To" = true := by decide
  have n8 : fieldNameOk "X-Mailing-List" = true := by decide
  have n9 : fieldNameOk "List-ID" = true := by decide
  have n10 : fieldNameOk "Sender" = true := by decide
  have n11 : fieldNameOk "List-Unsubscribe" = true := by decide
  have n12 : fieldNameOk "Content-Type" = true := by decide
  have n13 : fieldNameOk "Subject" = true := by decide
  have hall : msg.fields.all (fun f => fieldNameOk f.1 && fieldValueOk f.2) = true := by
    unfold Message.fields
    by_cases h1 : msg.Date = "" <;> by_cases h2 : msg.ID = "" <;>
      by_cases h3 : msg.XList = "" <;> by_cases h4 : msg.ListUnsubscribe = "" <;>
      by_cases h5 : msg.ContentType = "" <;>
      simp [h1, h2, h3, h4, h5, a1, a2, a3, a4, a5, a6, a7, a8, a9, a10, a11,
        n1, n2, n3, n4, n5, n6, n7, n8, n9, n10, n11, n12, n13]
  intro f hf
  have := List.all_eq_true.mp hall f hf
  simpa using this

/-- C9, amended: for a reader meeting the header-block contract, and a message whose
header fields hold no control character but the tab (so no CR or LF) and whose
Subject has no space or tab at either end, reading back the serialization
succeeds and gives the Subject and the Body of the message. -/
theorem roundTrip_of_headerSafe (ReadMessage : String → Except GoError MailMessage)
    (msg0 m : Message) (hR : ReadsHeaderBlocks ReadMessage)
    (hm : m.headerSafe = true) (hs : trimBlank m.Subject.data = m.Subject.data) :
    RoundTrips ReadMessage msg0 m := by
  obtain ⟨inMessage, hread, hbody, hget⟩ := hR m.fields m.Body (m.fields_ok hm)
  have hsub : inMessage.Get "Subject" = m.Subject := by
    rw [hget "Subject" (by decide), Message.headerGet_subject, hs]
  unfold RoundTrips
  rw [Message.goString_eq_wire]
  simp [Message.FromReader, hread, hbody, hsub]

theorem readLine_append (line rest : List Char) (h : '\r' ∉ line) :
    readLine (line ++ '\r' :: '\n' :: rest) = some (line, rest) := by
  induction line with
  | nil => simp [readLine]
  | cons c cs ih =>
    have hc : c ≠ '\r' := fun e => h (by simp [e])
    have hcs : '\r' ∉ cs := fun e => h (by simp [e])
    simp [readLine, hc, ih hcs]

theorem fieldNameOk_spec (name : String) (h : fieldNameOk name = true) :
    name.data ≠ [] ∧ ':' ∉ name.data ∧ '\r' ∉ name.data := by
  simp only [fieldNameOk, Bool.and_eq_true, bne_iff_ne, ne_eq, List.all_eq_true,
    Bool.or_eq_true, beq_iff_eq] at h
  refine ⟨h.1, ?_, ?_⟩
  · intro hm
    have := h.2 _ hm
    revert this
    decide
  · intro hm
    have := h.2 _ hm
    revert this
    decide

theorem fieldValueOk_spec (value : String) (h : fieldValueOk value = true) :
    '\r' ∉ value.data := by
  simp only [fieldValueOk, List.all_eq_true] at h
  intro hm
  have := h _ hm
  revert this
  decide

theorem trimBlank_space_cons (v : List Char) : trimBlank (' ' :: v) = trimBlank v := by
  simp [trimBlank, List.dropWhile, isBlank]

theorem wire_cons_data (f : String × String) (fs : List (String × String)) (body : String) :
    (wire (f :: fs) body).data
      = (f.1.data ++ ':' :: ' ' :: f.2.data) ++ '\r' :: '\n' :: (wire fs body).data := by
  simp [wire, String.data_append]

theorem wire_nil_data (body : String) : (wire [] body).data = '\r' :: '\n' :: body.data := by
  simp [wire, String.data_append]

theorem readFields_wire (fields : List (String × String)) (body : String)
    (hok : ∀ f ∈ fields, fieldNameOk f.1 = true ∧ fieldValueOk f.2 = true)
    (fuel : Nat) (hfuel : (wire fields body).data.length < fuel) :
    readFields fuel (wire fields body).data
      = .ok (fields.map (fun f => (f.1, String.mk (trimBlank f.2.data))), body.data) := by
  induction fields generalizing fuel with
  | nil =>
    cases fuel with
    | zero => omega
    | succ k =>
      rw [wire_nil_data]
      have := readLine_append [] body.data (by simp)
      simp only [List.nil_append] at this
      simp [readFields, this]
  | cons f fs ih =>
    cases fuel with
    | zero => omega
    | succ k =>
      obtain ⟨hname, hvalue⟩ := hok f (by simp)
      obtain ⟨hne, hcolon, hcr⟩ := fieldNameOk_spec _ hname
      have hvcr := fieldValueOk_spec _ hvalue
      have hline : '\r' ∉ f.1.data ++ ':' :: ' ' :: f.2.data := by
        simp only [List.mem_append, List.mem_cons, not_or]
        exact ⟨hcr, by decide, by decide, hvcr⟩
      have hrest : (wire fs body).data.length < k := by
        rw [wire_cons_data] at hfuel
        simp only [List.length_append, List.length_cons] at hfuel
        omega
      have hih := ih (fun g hg => hok g (by simp [hg])) k hrest
      have hnonempty : f.1.data ++ ':' :: ' ' :: f.2.data ≠ [] := by simp
      rw [wire_cons_data]
      unfold readFields
      rw [readLine_append _ _ hline]
      simp [hnonempty, cutFirst_append ':' f.1.data (' ' :: f.2.data) hcolon, hih,
        trimBlank_space_cons]

theorem find_map_trim (fields : List (String × String)) (key : String) :
    (match (fields.map (fun f => (f.1, String.mk (trimBlank f.2.data)))).find?
        (fun f => sameFieldName f.1 key) with
      | some f => f.2
      | none => "") = headerGet fields key := by
  unfold headerGet
  induction fields with
  | nil => simp
  | cons f fs ih =>
    cases h : sameFieldName f.1 key with
    | true => simp [List.find?, h]
    | false => simpa [List.find?, h] using ih

/-- The reader `readHeaderBlock` meets the contract. -/
theorem readHeaderBlock_readsHeaderBlocks : ReadsHeaderBlocks readHeaderBlock := by
  intro fields body hok
  have h := readFields_wire fields body hok ((wire fields body).data.length + 1) (by omega)
  refine ⟨{ Get := fun key => headerGet fields key, Body := .ok body }, ?_, rfl, fun _ _ => rfl⟩
  unfold readHeaderBlock
  rw [h]
  simp only [Except.ok.injEq, MailMessage.mk.injEq]
  refine ⟨?_, trivial⟩
  funext key
  exact find_map_trim fields key

/-- C9, amended, at a concrete message, read back by `readHeaderBlock`. -/
theorem roundTrip_of_headerSafe_witness :
    RoundTrips readHeaderBlock Message.zero
      { Message.zero with
        Subject := "Release 1.2", From := "Alice <alice@example.com>", To := "dev@example.com",
        ID := "<1@example.com>", XList := "Dev <dev@example.com>",
        Body := "Hello,\r\n\r\nsee the notes.\r\n" } :=
  roundTrip_of_headerSafe readHeaderBlock Message.zero _ readHeaderBlock_readsHeaderBlocks
    (by decide) (by decide)

/-- C11: the copy returned by `ResendAs` has an empty Body and an empty ContentType
whatever those of the source are, and replacing the Body and the ContentType of
the source by any other values leaves the returned copy the same. -/
theorem resendAs_drops_body_and_contentType {σ : Type}
    (ParseAddressList : String → Except GoError (List MailAddress))
    (msg : Message) (list : MailList σ) (commandAddress : String) :
    (msg.ResendAs ParseAddressList list commandAddress).2.Body = "" ∧
    (msg.ResendAs ParseAddressList list commandAddress).2.ContentType = "" ∧
    ∀ body contentType : String,
      (({ msg with Body := body, ContentType := contentType }).ResendAs
          ParseAddressList list commandAddress).2
        = (msg.ResendAs ParseAddressList list commandAddress).2 := by
  refine ⟨?_, ?_, ?_⟩
  · unfold Message.ResendAs
    cases hp : ParseAddressList msg.Bcc with
    | error e => cases hl : list.Locked <;> simp [Message.zero]
    | ok bccList =>
      cases hl : list.Locked <;> cases hb : ResendAs.bccLoop list.ID bccList <;>
        simp [Message.zero, hb]
  · unfold Message.ResendAs
    cases hp : ParseAddressList msg.Bcc with
    | error e => cases hl : list.Locked <;> simp [Message.zero]
    | ok bccList =>
      cases hl : list.Locked <;> cases hb : ResendAs.bccLoop list.ID bccList <;>
        simp [Message.zero, hb]
  · intro body contentType
    rfl

end Nanolist
